import Mathlib

/-!
# Verification of the concurrent turn-processing pipeline (`src/main.rs`)

A shallow embedding of the hivegame-uhp-ai turn pipeline: the turn
fingerprint hash (`calculate_hash`, Rust's `DefaultHasher` = SipHash-1-3
with zero keys), the producer cycle (`producer_task` loop body), the
engine worker (`process_turn`), the dispatcher's handle reaping
(`cleanup_processes`), and a small transition system for the semaphore
discipline. Machine integers are `Nat` with explicit reduction
mod `2^64`. The turn tracker (`turn_tracker.rs` is not part of the
sources) is modelled from the spec's contract.
-/

namespace HivePipeline

/-! ## 64-bit machine arithmetic

`u64` values are represented as `Nat` with every operation reduced
mod `2 ^ 64`, mirroring Rust's wrapping `u64` semantics. -/

def U64MOD : Nat := 2 ^ 64

/-- Wrapping 64-bit addition (`u64::wrapping_add`). -/
def wadd (a b : Nat) : Nat := (a + b) % U64MOD

/-- 64-bit xor (`u64` `^`); the reduction mod `2^64` is a no-op on
in-range operands but keeps every op uniformly in `[0, 2^64)`. -/
def wxor (a b : Nat) : Nat := (a ^^^ b) % U64MOD

/-- 64-bit or. -/
def wor (a b : Nat) : Nat := (a ||| b) % U64MOD

/-- 64-bit left shift (`u64` `<<`, truncating). -/
def wshl (a r : Nat) : Nat := (a <<< r) % U64MOD

/-- 64-bit right shift. -/
def wshr (a r : Nat) : Nat := (a >>> r) % U64MOD

/-- 64-bit left rotation (`u64::rotate_left`). -/
def rotl64 (x r : Nat) : Nat := wor (wshl x r) (wshr x (64 - r))

/-! ## The fingerprint hash: `calculate_hash`

Rust's `DefaultHasher::new()` is `SipHasher13::new_with_keys(0, 0)`:
SipHash with 1 compression round and 3 finalization rounds.
`str::hash` feeds the string's UTF-8 bytes followed by a single
`0xFF` byte into the hasher; `finish` returns the 64-bit digest. -/

/-- SipHash internal state: the four 64-bit lanes `v0, v1, v2, v3`. -/
structure SipState where
  v0 : Nat
  v1 : Nat
  v2 : Nat
  v3 : Nat
deriving Repr, DecidableEq

/-- One SIPROUND permutation. -/
def sipRound (s : SipState) : SipState :=
  let v0 := wadd s.v0 s.v1
  let v1 := rotl64 s.v1 13
  let v1 := wxor v1 v0
  let v0 := rotl64 v0 32
  let v2 := wadd s.v2 s.v3
  let v3 := rotl64 s.v3 16
  let v3 := wxor v3 v2
  let v0 := wadd v0 v3
  let v3 := rotl64 v3 21
  let v3 := wxor v3 v0
  let v2 := wadd v2 v1
  let v1 := rotl64 v1 17
  let v1 := wxor v1 v2
  let v2 := rotl64 v2 32
  ⟨v0, v1, v2, v3⟩

/-- Compress one 64-bit message word (SipHash-1-3: one round per word). -/
def sipCompress (s : SipState) (m : Nat) : SipState :=
  let s := { s with v3 := wxor s.v3 m }
  let s := sipRound s
  { s with v0 := wxor s.v0 m }

/-- Little-endian value of a byte list (first byte least significant). -/
def leWord (bytes : List Nat) : Nat :=
  bytes.foldr (fun b acc => b + (acc <<< 8)) 0

/-- Split a byte stream into full little-endian 8-byte words plus a
tail of fewer than 8 bytes. -/
def sipWords : List Nat → List Nat × List Nat
  | b0 :: b1 :: b2 :: b3 :: b4 :: b5 :: b6 :: b7 :: rest =>
    let r := sipWords rest
    (leWord [b0, b1, b2, b3, b4, b5, b6, b7] :: r.1, r.2)
  | l => ([], l)

/-- SipHash-1-3 of a byte stream with keys `k0`, `k1`. -/
def siphash13 (k0 k1 : Nat) (msg : List Nat) : Nat :=
  let s : SipState :=
    ⟨wxor k0 0x736f6d6570736575, wxor k1 0x646f72616e646f6d,
     wxor k0 0x6c7967656e657261, wxor k1 0x7465646279746573⟩
  let ws := sipWords msg
  let s := ws.1.foldl sipCompress s
  let b := wor (wshl (msg.length % 256) 56) (leWord ws.2)
  let s := sipCompress s b
  let s := { s with v2 := wxor s.v2 0xff }
  let s := sipRound (sipRound (sipRound s))
  wxor (wxor (wxor s.v0 s.v1) s.v2) s.v3

/-- UTF-8 encoding of a Unicode code point, as Rust's `str::as_bytes`
produces it. -/
def utf8Encode (n : Nat) : List Nat :=
  if n < 0x80 then [n]
  else if n < 0x800 then
    [0xC0 ||| (n >>> 6), 0x80 ||| (n &&& 0x3F)]
  else if n < 0x10000 then
    [0xE0 ||| (n >>> 12), 0x80 ||| ((n >>> 6) &&& 0x3F), 0x80 ||| (n &&& 0x3F)]
  else
    [0xF0 ||| (n >>> 18), 0x80 ||| ((n >>> 12) &&& 0x3F),
     0x80 ||| ((n >>> 6) &&& 0x3F), 0x80 ||| (n &&& 0x3F)]

/-- The UTF-8 byte stream of a string. -/
def strBytes (s : String) : List Nat :=
  s.data.foldr (fun c acc => utf8Encode c.toNat ++ acc) []

/-- `fn calculate_hash(game_string: &str) -> u64`: hash the string with
`DefaultHasher` (SipHash-1-3, zero keys); `Hash for str` writes the
UTF-8 bytes then the terminator byte `0xFF`. -/
def calculate_hash (game_string : String) : Nat :=
  siphash13 0 0 (strBytes game_string ++ [0xff])

/-! ## Data model -/

/-- `struct Bot`: immutable per-bot configuration. -/
structure Bot where
  name : String
  uri : String
  api_key : String
  ai_command : String
  bestmove_command_args : String
deriving Repr, DecidableEq

/-- `struct GameTurn`: one unit of work. -/
structure GameTurn where
  game_string : String
  hash : Nat
  bot : Bot
deriving Repr, DecidableEq

/-- `MAX_CONCURRENT_PROCESSES`: capacity of the permit pool. -/
def MAX_CONCURRENT_PROCESSES : Nat := 5

/-- `QUEUE_CAPACITY`: capacity of the shared bounded queue. -/
def QUEUE_CAPACITY : Nat := 1000

/-! ## Turn tracker

Modelled from the spec: the file `turn_tracker.rs` implementing
`TurnTracker` is not among the sources; §4.1 of the spec gives its
contract. State per fingerprint: absent (= `Unseen`), `InFlight`, or
`Completed` with a timestamp; `tracked` is true iff an entry exists;
`processing` inserts/overwrites an `InFlight` entry; `processed`
overwrites with `Completed(now)` regardless of prior state; `cleanup`
removes exactly the `Completed` entries older than the retention
window and never removes `InFlight` entries. -/

/-- Tracker entry for a fingerprint (spec §3, Tracker Entry). -/
inductive TrackerEntry where
  | inFlight
  | completed (at_ : Nat)
deriving Repr, DecidableEq

/-- The tracker's state map: fingerprint ↦ entry (absence = `Unseen`). -/
def Tracker : Type := Nat → Option TrackerEntry

/-- The empty tracker (`TurnTracker::new()`). -/
def Tracker.new : Tracker := fun _ => none

/-- Modelled from the spec: `is_tracked` — true iff an entry exists in
`InFlight` or `Completed` state (the source calls this `tracked`). -/
def Tracker.tracked (t : Tracker) (h : Nat) : Bool :=
  (t h).isSome

/-- Modelled from the spec: `mark_in_flight` — insert/overwrite an
`InFlight` entry (the source calls this `processing`). -/
def Tracker.processing (t : Tracker) (h : Nat) : Tracker :=
  fun h' => if h' = h then some TrackerEntry.inFlight else t h'

/-- Modelled from the spec: `mark_completed` — transition to
`Completed` with the current timestamp, regardless of prior state
(the source calls this `processed`). -/
def Tracker.processed (t : Tracker) (h : Nat) (now : Nat) : Tracker :=
  fun h' => if h' = h then some (TrackerEntry.completed now) else t h'

/-- Modelled from the spec: `cleanup` — remove every `Completed` entry
older than the retention window; never remove `InFlight` entries. -/
def Tracker.cleanup (t : Tracker) (now retention : Nat) : Tracker :=
  fun h => match t h with
    | some (TrackerEntry.completed ts) =>
        if retention < now - ts then none else some (TrackerEntry.completed ts)
    | e => e

/-! ## Producer (`producer_task` loop body)

Each cycle fetches the pending position strings (or an error), and for
each string: hash it, skip when tracked, otherwise build a `GameTurn`,
mark the hash in-flight, and send the turn to the queue. A failed send
(`sender.send(..).is_err()`, i.e. the channel is closed) logs
`"Failed to send turn to queue"` and `continue`s with the next string.
On a fetch error the cycle logs and produces nothing. Every path falls
through to the sleep and the next iteration of the infinite `loop`:
no statement in the loop body breaks out of it or returns. -/

/-- What the producer does after finishing one cycle: the source's
`loop` has no `break`/`return`, so the code always proceeds to the
next cycle; `terminated` exists to state claims about termination. -/
inductive CycleOutcome where
  | nextCycle
  | terminated
deriving Repr, DecidableEq

/-- Accumulator of one producer cycle: tracker state, turns
successfully sent to the queue (in order), log lines emitted. -/
structure ProdAcc where
  tracker : Tracker
  sent : List GameTurn
  logs : List String

/-- The body of the `for game_string in game_strings` loop for one
position string. `closed` says whether the queue receiver has been
dropped (so `sender.send` fails). -/
def produce_one (closed : Bool) (bot : Bot) (acc : ProdAcc) (game_string : String) : ProdAcc :=
  let hash := calculate_hash game_string
  if (acc.tracker.tracked hash) = true then acc
  else
    let turn : GameTurn := ⟨game_string, hash, bot⟩
    let tracker := acc.tracker.processing hash
    if closed then
      { tracker := tracker, sent := acc.sent,
        logs := acc.logs ++ ["Failed to send turn to queue"] }
    else
      { tracker := tracker, sent := acc.sent ++ [turn], logs := acc.logs }

/-- One full producer cycle: the `match api.fake_get_games(..)` body.
Returns the updated tracker, the turns sent, the log lines, and what
the producer does next. -/
def producer_cycle (closed : Bool) (bot : Bot) (tracker : Tracker)
    (fetched : Except String (List String)) :
    ProdAcc × CycleOutcome :=
  match fetched with
  | Except.error e =>
      (⟨tracker, [],
        ["Failed to fetch games for bot " ++ bot.name ++ ": " ++ e]⟩,
       CycleOutcome.nextCycle)
  | Except.ok game_strings =>
      (game_strings.foldl (produce_one closed bot) ⟨tracker, [], []⟩,
       CycleOutcome.nextCycle)

/-! ## Engine worker (`process_turn`)

`process_turn` acquires a semaphore permit, spawns the engine process
(`ai::spawn_process`, not among the sources — outcome taken as an
input), runs the protocol (`ai::run_commands`, likewise an input),
and on every path calls `turn_tracker.processed(turn.hash)` before
returning; the permit guard `_permit` is dropped at scope exit of the
same path. We record the visible actions of one invocation as an
event list. -/

/-- Observable actions of one `process_turn` invocation, in order. -/
inductive WEvent where
  | acquirePermit
  | spawnAttempt
  | logLine (s : String)
  | bestmove (m : String)
  | markProcessed (h : Nat)
  | releasePermit
deriving Repr, DecidableEq

/-- The ordered events of `process_turn(turn, ..)` given the outcome
of the spawn (`Except.error e` = `ai::spawn_process` failed) and of
the protocol run (`Except.ok m` = bestmove `m`). `releasePermit` is
the drop of `_permit` when the corresponding return path leaves the
function's scope. -/
def process_turn_events (turn : GameTurn)
    (spawnRes : Except String Unit) (runRes : Except String String) :
    List WEvent :=
  [WEvent.acquirePermit, WEvent.spawnAttempt] ++
  match spawnRes with
  | Except.error e =>
      [WEvent.logLine ("Failed to spawn AI process for bot " ++ turn.bot.name ++ ": " ++ e),
       WEvent.markProcessed turn.hash, WEvent.releasePermit]
  | Except.ok _ =>
      (match runRes with
       | Except.ok m =>
           [WEvent.bestmove m]
       | Except.error e =>
           [WEvent.logLine ("Error running AI commands for bot " ++ turn.bot.name ++ ": " ++ e)]) ++
      [WEvent.markProcessed turn.hash, WEvent.releasePermit]

/-- Tracker update performed by one `process_turn` invocation: every
path ends in `turn_tracker.processed(turn.hash)`. -/
def process_turn_tracker (turn : GameTurn) (t : Tracker) (now : Nat) : Tracker :=
  t.processed turn.hash now

/-! ## Dispatcher handle reaping (`cleanup_processes`) -/

/-- A `tokio::task::JoinHandle` as the dispatcher sees it: an identity
plus whether `is_finished()` currently reports true. -/
structure Handle where
  id : Nat
  is_finished : Bool
deriving Repr, DecidableEq

/-- `cleanup_processes`: `processes.retain(|handle| !handle.is_finished())`. -/
def cleanup_processes (processes : List Handle) : List Handle :=
  processes.filter (fun handle => !handle.is_finished)

/-! ## Semaphore discipline (`main` + `consumer_task` + `process_turn`)

A transition system over the pipeline's resource state. `main` creates
`Semaphore::new(MAX_CONCURRENT_PROCESSES)` and never calls `close` on
it (no `close` appears anywhere in the source); `process_turn` spawns
the engine subprocess only after `semaphore.acquire()` returned a
permit, and the permit is returned when `_permit` is dropped at scope
exit. Worker tasks are spawned by the dispatcher and first block in
`acquire`. -/

/-- The tokio semaphore: available permit count plus the closed flag
(`acquire` returns an error exactly when the semaphore was closed). -/
structure SemState where
  permits : Nat
  closed : Bool
deriving Repr, DecidableEq

/-- Resource state of the pipeline: the shared semaphore, the number
of `process_turn` tasks blocked in `acquire`, and the number of
engine subprocesses currently running (each holding one permit). -/
structure SysState where
  sem : SemState
  waiting : Nat
  running : Nat
deriving Repr, DecidableEq

/-- Initial state from `main`: `Semaphore::new(MAX_CONCURRENT_PROCESSES)`,
no workers yet. -/
def initSys : SysState :=
  ⟨⟨MAX_CONCURRENT_PROCESSES, false⟩, 0, 0⟩

/-- One transition of the resource state. No step sets `closed`:
`Semaphore::close` is never called in the source. -/
inductive SysStep : SysState → SysState → Prop where
  /-- `consumer_task` spawns a `process_turn` task; it starts blocked
  in `semaphore.acquire()`. -/
  | spawnTask (s : SysState) :
      SysStep s ⟨s.sem, s.waiting + 1, s.running⟩
  /-- A blocked worker obtains a permit (possible only when one is
  available and the semaphore is open) and its engine subprocess
  spawn succeeds: one more engine runs, holding the permit. -/
  | acquireSpawn (s : SysState)
      (hw : 0 < s.waiting) (hp : 0 < s.sem.permits) (hc : s.sem.closed = false) :
      SysStep s ⟨⟨s.sem.permits - 1, s.sem.closed⟩, s.waiting - 1, s.running + 1⟩
  /-- A blocked worker obtains a permit but `ai::spawn_process` fails:
  the worker marks the turn processed and returns, dropping the permit
  at once; no engine subprocess starts (net permit change zero). -/
  | acquireSpawnFail (s : SysState)
      (hw : 0 < s.waiting) (hp : 0 < s.sem.permits) (hc : s.sem.closed = false) :
      SysStep s ⟨s.sem, s.waiting - 1, s.running⟩
  /-- A running worker finishes (bestmove or protocol error), its
  engine subprocess ends, and dropping `_permit` returns the permit. -/
  | finishTurn (s : SysState) (hr : 0 < s.running) :
      SysStep s ⟨⟨s.sem.permits + 1, s.sem.closed⟩, s.waiting, s.running - 1⟩

/-- States reachable from `initSys` by `SysStep` transitions. -/
inductive SysReachable : SysState → Prop where
  | init : SysReachable initSys
  | step {s s' : SysState} : SysReachable s → SysStep s s' → SysReachable s'

/-- The invariant maintained by the semaphore discipline: permits in
the pool plus permits held by running engines add up to the pool
capacity, and the semaphore is never closed. -/
def SysInv (s : SysState) : Prop :=
  s.sem.permits + s.running = MAX_CONCURRENT_PROCESSES ∧ s.sem.closed = false

theorem sysStep_inv {s s' : SysState} (hs : SysInv s) (st : SysStep s s') : SysInv s' := by
  rcases hs with ⟨hsum, hcl⟩
  cases st with
  | spawnTask => exact ⟨hsum, hcl⟩
  | acquireSpawn hw hp hc =>
      refine ⟨?_, hcl⟩
      simp only
      omega
  | acquireSpawnFail hw hp hc => exact ⟨hsum, hcl⟩
  | finishTurn hr =>
      refine ⟨?_, hcl⟩
      simp only
      omega

theorem sysReachable_inv {s : SysState} (hs : SysReachable s) : SysInv s := by
  induction hs with
  | init => exact ⟨rfl, rfl⟩
  | step _ st ih => exact sysStep_inv ih st

/-! ## Dedup traces

Events on one fingerprint's lifecycle, as seen at the tracker/queue:
a successful `mark_in_flight` (`processing`), the enqueue that follows
it, and a `mark_completed` (`processed`). The dedup invariant of the
spec says a `mark` of a fingerprint never happens while an earlier
`mark` of the same fingerprint is still unmatched by a `proc`. -/

/-- One tracker/queue event, tagged with the fingerprint. -/
inductive TEvent where
  | mark (f : Nat)
  | enq (f : Nat)
  | proc (f : Nat)
deriving Repr, DecidableEq

/-- Scan a trace, carrying the fingerprints marked in-flight and not
yet completed; `none` means some `mark f` happened while `f` was
already open — a dedup violation. -/
def scanOpen : List TEvent → List Nat → Option (List Nat)
  | [], fs => some fs
  | TEvent.mark f :: tr, fs =>
      if f ∈ fs then none else scanOpen tr (f :: fs)
  | TEvent.enq _ :: tr, fs => scanOpen tr fs
  | TEvent.proc f :: tr, fs => scanOpen tr (fs.erase f)

/-- The spec's dedup invariant as a trace predicate: between a
`mark f` and its matching `proc f` no second `mark f` occurs. -/
def dedupOK (tr : List TEvent) : Bool :=
  (scanOpen tr []).isSome

/-! ## Producer interleaving (the code as written)

In `producer_task` the dedup check and the in-flight mark are separate
awaited calls: `turn_tracker.tracked(hash).await` then, later,
`turn_tracker.processing(hash).await` and `sender.send(turn).await`.
Between the check and the mark the task can be suspended and another
producer can run. We model each producer's per-position work as two
scheduler-visible steps: `check` (the `tracked` call, arming the
producer when it returns false) and `markSend` (the `processing` call
followed by the send). A worker completing a dequeued turn is a third
step. -/

/-- Local state of one producer inside its `for game_string` loop. -/
structure ProdLocal where
  /-- Position strings not yet checked this cycle. -/
  pending : List String
  /-- `some g`: the producer saw `tracked(hash(g)) == false` and will
  mark and send `g` when next scheduled. -/
  armed : Option String
deriving Repr, DecidableEq

/-- Global state of the interleaved producers: the shared tracker, the
queue contents (fingerprints), the event trace, and each producer's
local state. -/
structure RaceState where
  tracker : Tracker
  queue : List Nat
  trace : List TEvent
  prods : List ProdLocal

/-- A scheduler choice. -/
inductive RAction where
  /-- Run producer `i` up to and through its `tracked` check. -/
  | check (i : Nat)
  /-- Run producer `i` through `processing` and `send`. -/
  | markSend (i : Nat)
  /-- A worker dequeues fingerprint `f` and completes it at time `now`. -/
  | complete (f : Nat) (now : Nat)

/-- Update the `i`-th producer's local state. -/
def setProd (ps : List ProdLocal) (i : Nat) (p : ProdLocal) : List ProdLocal :=
  ps.set i p

/-- One interleaving step of the system as coded (check and mark are
separate steps). -/
def raceStep (s : RaceState) (a : RAction) : RaceState :=
  match a with
  | RAction.check i =>
      match s.prods[i]? with
      | some ⟨g :: rest, none⟩ =>
          if s.tracker.tracked (calculate_hash g) then
            { s with prods := setProd s.prods i ⟨rest, none⟩ }
          else
            { s with prods := setProd s.prods i ⟨rest, some g⟩ }
      | _ => s
  | RAction.markSend i =>
      match s.prods[i]? with
      | some ⟨rest, some g⟩ =>
          let f := calculate_hash g
          { tracker := s.tracker.processing f,
            queue := s.queue ++ [f],
            trace := s.trace ++ [TEvent.mark f, TEvent.enq f],
            prods := setProd s.prods i ⟨rest, none⟩ }
      | _ => s
  | RAction.complete f now =>
      if f ∈ s.queue then
        { tracker := s.tracker.processed f now,
          queue := s.queue.erase f,
          trace := s.trace ++ [TEvent.proc f],
          prods := s.prods }
      else s

/-- Run a schedule of interleaving steps. -/
def raceRun (s : RaceState) (as_ : List RAction) : RaceState :=
  as_.foldl raceStep s

/-- Two producers (one per bot) each fetched the same single position
string `g` in the same cycle; tracker empty, queue empty. -/
def raceInit (g : String) : RaceState :=
  ⟨Tracker.new, [], [], [⟨[g], none⟩, ⟨[g], none⟩]⟩

/-- The interleaving in which both producers pass the `tracked` check
before either marks: check₀, check₁, markSend₀, markSend₁. -/
def raceSchedule : List RAction :=
  [RAction.check 0, RAction.check 1, RAction.markSend 0, RAction.markSend 1]

/-! ## Atomic check-and-mark model

The same pipeline with the producer's `tracked` check and `processing`
mark fused into a single scheduler step (the "insert-if-absent"
variant the spec's §9 proposes): under this discipline the dedup
invariant holds for every schedule. -/

/-- Pipeline state for the atomic model. -/
structure AtomicState where
  tracker : Tracker
  queue : List Nat
  trace : List TEvent

/-- Scheduler choices in the atomic model. -/
inductive AAction where
  /-- A producer handles one fetched position: check `tracked` and, if
  untracked, mark in-flight and enqueue — in one step. -/
  | tryProduce (g : String)
  /-- A worker dequeues fingerprint `f` and completes it at time `now`. -/
  | complete (f : Nat) (now : Nat)
  /-- The cleanup task purges stale completed entries. -/
  | cleanupTick (now retention : Nat)

/-- One step of the atomic model. -/
def astep (s : AtomicState) (a : AAction) : AtomicState :=
  match a with
  | AAction.tryProduce g =>
      let f := calculate_hash g
      if s.tracker.tracked f then s
      else
        { tracker := s.tracker.processing f,
          queue := s.queue ++ [f],
          trace := s.trace ++ [TEvent.mark f, TEvent.enq f] }
  | AAction.complete f now =>
      if f ∈ s.queue then
        { tracker := s.tracker.processed f now,
          queue := s.queue.erase f,
          trace := s.trace ++ [TEvent.proc f] }
      else s
  | AAction.cleanupTick now retention =>
      { s with tracker := s.tracker.cleanup now retention }

/-- Run a schedule in the atomic model. -/
def arun (s : AtomicState) (as_ : List AAction) : AtomicState :=
  as_.foldl astep s

/-- Empty initial state of the atomic model. -/
def initAtomic : AtomicState := ⟨Tracker.new, [], []⟩

/-- The inductive invariant of the atomic model: scanning the trace
succeeds, and the open fingerprints are exactly those `InFlight` in
the tracker. -/
def AInv (s : AtomicState) (fs : List Nat) : Prop :=
  scanOpen s.trace [] = some fs ∧ fs.Nodup ∧
    ∀ f, f ∈ fs ↔ s.tracker f = some TrackerEntry.inFlight

theorem scanOpen_append (t₁ t₂ : List TEvent) (fs : List Nat) :
    scanOpen (t₁ ++ t₂) fs = (scanOpen t₁ fs).bind (fun fs' => scanOpen t₂ fs') := by
  induction t₁ generalizing fs with
  | nil => rfl
  | cons e tr ih =>
      cases e with
      | mark f =>
          simp only [List.cons_append, scanOpen]
          by_cases h : f ∈ fs
          · simp [h]
          · simp [h, ih]
      | enq f => simpa [scanOpen] using ih fs
      | proc f => simpa [scanOpen] using ih (fs.erase f)

theorem astep_inv {s : AtomicState} {fs : List Nat} (a : AAction)
    (hs : AInv s fs) : ∃ fs', AInv (astep s a) fs' := by
  rcases hs with ⟨hscan, hnd, hmem⟩
  cases a with
  | tryProduce g =>
      by_cases ht : s.tracker.tracked (calculate_hash g)
      · exact ⟨fs, by simpa [astep, ht] using ⟨hscan, hnd, hmem⟩⟩
      · have hnotmem : calculate_hash g ∉ fs := by
          intro hin
          have := (hmem _).mp hin
          simp [Tracker.tracked, this] at ht
        refine ⟨calculate_hash g :: fs, ?_, ?_, ?_⟩
        · simp [astep, ht, scanOpen_append, hscan, scanOpen, hnotmem]
        · exact List.nodup_cons.mpr ⟨hnotmem, hnd⟩
        · intro f
          simp only [astep, ht, if_neg, Bool.false_eq_true, ite_false,
            List.mem_cons, Tracker.processing]
          by_cases hf : f = calculate_hash g
          · simp [hf]
          · simp [hf, hmem f]
  | complete f now =>
      by_cases hq : f ∈ s.queue
      · refine ⟨fs.erase f, ?_, List.Nodup.erase f hnd, ?_⟩
        · simp [astep, hq, scanOpen_append, hscan, scanOpen]
        · intro f'
          rw [List.Nodup.mem_erase_iff hnd]
          simp only [astep, hq, ite_true, Tracker.processed]
          by_cases hf : f' = f
          · simp [hf]
          · simp [hf, hmem f']
      · exact ⟨fs, by simpa [astep, hq] using ⟨hscan, hnd, hmem⟩⟩
  | cleanupTick now retention =>
      refine ⟨fs, hscan, hnd, ?_⟩
      intro f
      rw [hmem f]
      simp only [astep, Tracker.cleanup]
      cases he : s.tracker f with
      | none => simp
      | some e =>
          cases e with
          | inFlight => simp
          | completed ts =>
              by_cases hold : retention < now - ts <;> simp [hold]

theorem arun_inv {s : AtomicState} {fs : List Nat} (as_ : List AAction)
    (hs : AInv s fs) : ∃ fs', AInv (arun s as_) fs' := by
  induction as_ generalizing s fs with
  | nil => exact ⟨fs, hs⟩
  | cons a rest ih =>
      rcases astep_inv a hs with ⟨fs', h'⟩
      exact ih h'

/-- The first bot of `main`'s roster (concrete inputs for witnesses). -/
def sampleBot : Bot :=
  ⟨"nokamute1", "/games/nokamute1", "nokamute1_key",
   "../nokamute/target/debug/nokamute uhp --threads=1", "depth 1"⟩

/-! ## Helper lemmas -/

/-- With the queue closed, no send ever succeeds: the fold never
extends `sent`. -/
theorem produce_sent_closed (bot : Bot) (gs : List String) (acc : ProdAcc) :
    (gs.foldl (produce_one true bot) acc).sent = acc.sent := by
  induction gs generalizing acc with
  | nil => rfl
  | cons g rest ih =>
      rw [List.foldl_cons, ih]
      unfold produce_one
      by_cases ht : (acc.tracker.tracked (calculate_hash g)) = true <;> simp [ht]

/-- Turns a producer cycle sends carry the hash of their own
position string and the producing bot. -/
theorem produce_sent_invariant (closed : Bool) (bot : Bot) (gs : List String) (acc : ProdAcc)
    (hacc : ∀ turn ∈ acc.sent, turn.hash = calculate_hash turn.game_string ∧ turn.bot = bot) :
    ∀ turn ∈ (gs.foldl (produce_one closed bot) acc).sent,
      turn.hash = calculate_hash turn.game_string ∧ turn.bot = bot := by
  induction gs generalizing acc with
  | nil => exact hacc
  | cons g rest ih =>
      rw [List.foldl_cons]
      apply ih
      intro turn hturn
      unfold produce_one at hturn
      by_cases ht : (acc.tracker.tracked (calculate_hash g)) = true
      · rw [if_pos ht] at hturn
        exact hacc turn hturn
      · rw [if_neg ht] at hturn
        cases closed with
        | true => exact hacc turn (by simpa using hturn)
        | false =>
            simp only [Bool.false_eq_true, ite_false, List.mem_append] at hturn
            cases hturn with
            | inl hold => exact hacc turn hold
            | inr hnew =>
                simp only [List.mem_singleton] at hnew
                subst hnew
                exact ⟨rfl, rfl⟩

/-! ## Claim theorems -/

/-- C1 (counterexample): with the queue permanently closed and a fresh
position fetched, the producer cycle does *not* terminate the producer:
the failed `sender.send` is logged and `continue`d, and the loop
proceeds to the next cycle. -/
theorem c1_push_failure_not_terminating :
    (producer_cycle true sampleBot Tracker.new
        (Except.ok ["InProgress;White[3];wS1;bG1 -wS1;wA1 wS1/"])).2 =
      CycleOutcome.nextCycle ∧
    CycleOutcome.nextCycle ≠ CycleOutcome.terminated :=
  ⟨rfl, by decide⟩

/-- C1 (amended): a queue-push failure (queue permanently closed) is
logged as `"Failed to send turn to queue"` and the turn is skipped —
nothing reaches the queue — but the producer task does not terminate:
the cycle completes and the loop continues; the process does not
crash. -/
theorem c1_push_failure_logged_and_continues (bot : Bot) (tracker : Tracker)
    (gs : List String) (g : String)
    (hg : tracker.tracked (calculate_hash g) = false) :
    (producer_cycle true bot tracker (Except.ok gs)).2 = CycleOutcome.nextCycle ∧
    (producer_cycle true bot tracker (Except.ok gs)).1.sent = [] ∧
    "Failed to send turn to queue" ∈
      (producer_cycle true bot tracker (Except.ok [g])).1.logs := by
  refine ⟨rfl, ?_, ?_⟩
  · exact produce_sent_closed bot gs ⟨tracker, [], []⟩
  · simp [producer_cycle, produce_one, hg]

/-- C1 witness: the amended statement at a concrete closed-queue cycle. -/
theorem c1_witness :
    (producer_cycle true sampleBot Tracker.new (Except.ok ["wS1"])).2 =
        CycleOutcome.nextCycle ∧
    (producer_cycle true sampleBot Tracker.new (Except.ok ["wS1"])).1.sent = [] ∧
    "Failed to send turn to queue" ∈
      (producer_cycle true sampleBot Tracker.new (Except.ok ["wS1"])).1.logs :=
  c1_push_failure_logged_and_continues sampleBot Tracker.new ["wS1"] "wS1" rfl

/-- C5: for every fetched position string, the producer skips it
(state and outputs unchanged) when its fingerprint is tracked;
otherwise it marks the fingerprint in-flight and — when the queue is
open — sends exactly the turn built from the string, its hash and the
producing bot. -/
theorem c5_skip_tracked_else_mark_and_send (closed : Bool) (bot : Bot)
    (acc : ProdAcc) (g : String) :
    (acc.tracker.tracked (calculate_hash g) = true →
       produce_one closed bot acc g = acc) ∧
    (acc.tracker.tracked (calculate_hash g) = false →
       (produce_one closed bot acc g).tracker =
         acc.tracker.processing (calculate_hash g) ∧
       (closed = false →
         (produce_one closed bot acc g).sent =
           acc.sent ++ [⟨g, calculate_hash g, bot⟩])) := by
  constructor
  · intro ht
    unfold produce_one
    rw [if_pos ht]
  · intro ht
    constructor
    · unfold produce_one
      rw [if_neg (by simp [ht])]
      cases closed <;> simp
    · intro hcl
      subst hcl
      unfold produce_one
      rw [if_neg (by simp [ht])]
      simp

/-- C5 witness: a fresh fingerprint on an open queue is marked and
sent; then the same string a second time is skipped. -/
theorem c5_witness :
    (produce_one false sampleBot ⟨Tracker.new, [], []⟩ "wS1").tracker =
      Tracker.new.processing (calculate_hash "wS1") ∧
    (produce_one false sampleBot ⟨Tracker.new, [], []⟩ "wS1").sent =
      [] ++ [⟨"wS1", calculate_hash "wS1", sampleBot⟩] :=
  ⟨((c5_skip_tracked_else_mark_and_send false sampleBot ⟨Tracker.new, [], []⟩ "wS1").2 rfl).1,
   ((c5_skip_tracked_else_mark_and_send false sampleBot ⟨Tracker.new, [], []⟩ "wS1").2 rfl).2 rfl⟩

/-- C6: a fetch failure is logged (naming the bot and the error) and
treated as "no turns this cycle": the tracker function is returned
untouched, nothing is sent, and the producer proceeds to the next
cycle rather than terminating. -/
theorem c6_fetch_error_logged_no_effect (closed : Bool) (bot : Bot)
    (tracker : Tracker) (e : String) :
    producer_cycle closed bot tracker (Except.error e) =
      (⟨tracker, [],
        ["Failed to fetch games for bot " ++ bot.name ++ ": " ++ e]⟩,
       CycleOutcome.nextCycle) := rfl

/-- C7: the dispatcher's reap step keeps exactly the unfinished
handles: it is a sublist of the input (nothing added, order kept),
membership is membership-and-unfinished, and per-handle multiplicity
is preserved for unfinished handles and zero for finished ones. -/
theorem c7_cleanup_reaps_exactly_finished (processes : List Handle) :
    (cleanup_processes processes).Sublist processes ∧
    (∀ h : Handle, h ∈ cleanup_processes processes ↔
        h ∈ processes ∧ h.is_finished = false) ∧
    (∀ h : Handle, (cleanup_processes processes).count h =
        if h.is_finished then 0 else processes.count h) := by
  refine ⟨List.filter_sublist processes, ?_, ?_⟩
  · intro h
    simp [cleanup_processes, List.mem_filter]
  · intro h
    cases hf : h.is_finished with
    | true =>
        rw [if_pos rfl]
        rw [List.count_eq_zero]
        intro hmem
        rw [cleanup_processes, List.mem_filter, hf] at hmem
        simp at hmem
    | false =>
        rw [if_neg (by simp)]
        rw [cleanup_processes]
        apply List.count_filter
        simp [hf]

/-- C2: whatever the outcome of the spawn and of the protocol run —
successful bestmove, spawn failure, or protocol/IO failure — one
`process_turn` invocation emits `mark_completed` (`processed`) on the
turn's fingerprint exactly once, never on any other fingerprint,
acquires its permit exactly once, and the permit release is the last
action of every exit path. -/
theorem c2_mark_completed_once_permit_released (turn : GameTurn)
    (spawnRes : Except String Unit) (runRes : Except String String) :
    ((process_turn_events turn spawnRes runRes).count
        (WEvent.markProcessed turn.hash) = 1) ∧
    (∀ f, WEvent.markProcessed f ∈ process_turn_events turn spawnRes runRes →
        f = turn.hash) ∧
    ((process_turn_events turn spawnRes runRes).count WEvent.acquirePermit = 1) ∧
    ((process_turn_events turn spawnRes runRes).count WEvent.releasePermit = 1) ∧
    ((process_turn_events turn spawnRes runRes).getLast? =
        some WEvent.releasePermit) := by
  cases spawnRes with
  | error e =>
      refine ⟨?_, ?_, ?_, ?_, ?_⟩ <;> simp [process_turn_events, List.count_cons]
  | ok u =>
      cases runRes with
      | ok m =>
          refine ⟨?_, ?_, ?_, ?_, ?_⟩ <;>
            simp [process_turn_events, List.count_cons]
      | error e =>
          refine ⟨?_, ?_, ?_, ?_, ?_⟩ <;>
            simp [process_turn_events, List.count_cons]

/-- C3 (counterexample): two producers fetch the identical position in
the same cycle; in the interleaving check₀ check₁ mark₀ mark₁ (both
dedup checks pass before either producer marks — the awaited calls in
`producer_task` allow exactly this), a second `mark_in_flight` of the
same fingerprint succeeds and the fingerprint is enqueued twice with
no completion in between: the dedup invariant fails on the trace. -/
theorem c3_dedup_race_violation :
    dedupOK (raceRun (raceInit "InProgress;White[3];wS1;bG1 -wS1") raceSchedule).trace
        = false ∧
    (raceRun (raceInit "InProgress;White[3];wS1;bG1 -wS1") raceSchedule).queue =
      [calculate_hash "InProgress;White[3];wS1;bG1 -wS1",
       calculate_hash "InProgress;White[3];wS1;bG1 -wS1"] := by
  constructor
  · decide
  · decide

/-- C3 (amended): if each producer's `is_tracked` check and
`mark_in_flight` happen in one atomic step (the insert-if-absent
variant of spec §9), the dedup invariant holds for every schedule:
between a `mark_in_flight(F)` and its matching `mark_completed(F)`
no second `mark_in_flight(F)` succeeds — with the code's separate
awaited check and mark, two producers can interleave between the two
calls and enqueue the same fingerprint twice. -/
theorem c3_dedup_atomic_check_mark (as_ : List AAction) :
    dedupOK (arun initAtomic as_).trace = true := by
  have h0 : AInv initAtomic [] := by
    refine ⟨rfl, List.nodup_nil, ?_⟩
    intro f
    simp [initAtomic, Tracker.new]
  rcases arun_inv as_ h0 with ⟨fs, hscan, _, _⟩
  simp [dedupOK, hscan]

/-- C4: in every reachable resource state, at most
`MAX_CONCURRENT_PROCESSES` engine subprocesses run concurrently — a
subprocess starts only through the `acquireSpawn` step, which consumes
one semaphore permit, and permits-in-pool plus running engines is
constantly the pool capacity. -/
theorem c4_concurrency_bound {s : SysState} (hs : SysReachable s) :
    s.running ≤ MAX_CONCURRENT_PROCESSES := by
  rcases sysReachable_inv hs with ⟨hsum, _⟩
  omega

/-- C4 witness: the bound at the concrete reachable state after one
task was spawned and acquired its permit. -/
theorem c4_witness :
    (⟨⟨MAX_CONCURRENT_PROCESSES - 1, false⟩, 0, 1⟩ : SysState).running ≤
      MAX_CONCURRENT_PROCESSES :=
  c4_concurrency_bound
    (SysReachable.step
      (SysReachable.step SysReachable.init (SysStep.spawnTask initSys))
      (SysStep.acquireSpawn ⟨⟨MAX_CONCURRENT_PROCESSES, false⟩, 1, 0⟩
        (by decide) (by decide) rfl))

/-- tokio's `Semaphore::acquire` as `process_turn` sees it: an
`AcquireError` exactly when the semaphore has been closed, otherwise
(possibly after waiting) `Ok`. -/
def acquireResult (sem : SemState) : Except String Unit :=
  if sem.closed then Except.error "Failed to acquire semaphore" else Except.ok ()

/-- C10: the semaphore created in `main` is never closed — no
transition of the pipeline sets the closed flag, since
`Semaphore::close` is never called — so in every reachable state
`acquire` returns `Ok` and the `expect("Failed to acquire semaphore")`
error branch is unreachable. -/
theorem c10_acquire_never_fails {s : SysState} (hs : SysReachable s) :
    s.sem.closed = false ∧ acquireResult s.sem = Except.ok () := by
  rcases sysReachable_inv hs with ⟨_, hcl⟩
  refine ⟨hcl, ?_⟩
  rw [acquireResult, if_neg (by simp [hcl])]

/-- C10 witness: at the initial state of `main`. -/
theorem c10_witness :
    initSys.sem.closed = false ∧ acquireResult initSys.sem = Except.ok () :=
  c10_acquire_never_fails SysReachable.init

/-- C8: the fingerprint is a deterministic, fixed-width hash of the
position string alone: `calculate_hash` always lands in `[0, 2^64)`,
and equal game strings get equal fingerprints (the hasher is
`DefaultHasher::new()` — SipHash-1-3 with fixed zero keys — so the
digest depends on nothing but the string). -/
theorem c8_hash_deterministic_fixed_width (s t : String) :
    calculate_hash s < 2 ^ 64 ∧ (s = t → calculate_hash s = calculate_hash t) := by
  constructor
  · show wxor _ _ < 2 ^ 64
    exact Nat.mod_lt _ (by rw [U64MOD]; norm_num)
  · intro h
    rw [h]

/-- C9: every turn a producer sends satisfies
`hash = calculate_hash(game_string)` and `bot = producing bot`, and
`process_turn` marks processed exactly that fingerprint — the one the
producer marked in-flight. -/
theorem c9_turn_fingerprint_invariant (closed : Bool) (bot : Bot) (tracker : Tracker)
    (gs : List String) (turn : GameTurn)
    (hmem : turn ∈ (producer_cycle closed bot tracker (Except.ok gs)).1.sent)
    (spawnRes : Except String Unit) (runRes : Except String String) :
    turn.hash = calculate_hash turn.game_string ∧ turn.bot = bot ∧
    WEvent.markProcessed (calculate_hash turn.game_string) ∈
      process_turn_events turn spawnRes runRes := by
  have hinv := produce_sent_invariant closed bot gs ⟨tracker, [], []⟩
    (by intro t ht; simp at ht) turn hmem
  refine ⟨hinv.1, hinv.2, ?_⟩
  rw [← hinv.1]
  cases spawnRes with
  | error e => simp [process_turn_events]
  | ok u => cases runRes <;> simp [process_turn_events]

/-- C9 witness: the invariant at a concrete sent turn. -/
theorem c9_witness :
    (⟨"wS1", calculate_hash "wS1", sampleBot⟩ : GameTurn).hash =
        calculate_hash (GameTurn.game_string ⟨"wS1", calculate_hash "wS1", sampleBot⟩) ∧
    (⟨"wS1", calculate_hash "wS1", sampleBot⟩ : GameTurn).bot = sampleBot ∧
    WEvent.markProcessed
        (calculate_hash (GameTurn.game_string ⟨"wS1", calculate_hash "wS1", sampleBot⟩)) ∈
      process_turn_events ⟨"wS1", calculate_hash "wS1", sampleBot⟩
        (Except.ok ()) (Except.ok "wA1 wS1/") :=
  c9_turn_fingerprint_invariant false sampleBot Tracker.new ["wS1"]
    ⟨"wS1", calculate_hash "wS1", sampleBot⟩
    (by simp [producer_cycle, produce_one, Tracker.new, Tracker.tracked])
    (Except.ok ()) (Except.ok "wA1 wS1/")

end HivePipeline
